import Mathlib

/-!
Verification of the sales-analytics cleaning and aggregation pipeline.

The Python sources (data_processor.py, file_handler.py, api_handler.py) are
shallowly embedded: Python str is modelled by Lean String, Python float by
exact rationals, Python int by Int, dictionaries by insertion-ordered
association lists, and Python's stable sorted() by insertion sort (any
stable sort produces the same output list). Fallible parsing is modelled by
Option. Python's float()/int() parsers are modelled on their documented
grammar for finite decimal literals (sign, digits, one dot, optional
exponent); exotic inputs (inf, nan, digit underscores, non-ASCII digits)
are outside the model, and none of the results below depend on them.
-/

set_option allowUnsafeReducibility true

attribute [semireducible] Rat.mul Rat.add Rat.sub Rat.inv Rat.div Rat.neg Rat.ofScientific Rat.blt

/-! ### Python string primitives -/

/-- The whitespace characters that Python's str.strip removes
(ASCII fragment; the transaction data is ASCII). -/
def isPySpace (c : Char) : Bool :=
  c = ' ' || c = '\t' || c = '\n' || c = '\x0d' || c = '\x0b' || c = '\x0c'

/-- str.strip on the character list: drop whitespace from both ends. -/
def pyStripL (l : List Char) : List Char :=
  ((l.dropWhile isPySpace).reverse.dropWhile isPySpace).reverse

/-- Python str.strip. -/
def pyStrip (s : String) : String := ⟨pyStripL s.data⟩

/-- Python value.replace(",", "") — delete every comma. -/
def removeComma (s : String) : String := ⟨s.data.filter (fun c => c ≠ ',')⟩

/-- Python product_name.replace(",", " ") — each comma becomes one space. -/
def commaToSpace (s : String) : String :=
  ⟨s.data.map (fun c => if c = ',' then ' ' else c)⟩

/-- Python str.lower (ASCII fragment, as used on region names). -/
def pyLower (s : String) : String := ⟨s.data.map Char.toLower⟩

/-- Python s.startswith(c) for a one-character pattern. -/
def pyStartsWith (s : String) (c : Char) : Bool :=
  match s.data with
  | [] => false
  | d :: _ => d = c

/-- Drop the first character: Python s[1:]. -/
def pyTail (s : String) : String := ⟨s.data.tail⟩

/-- Helper of line.split on the pipe character: accumulate the current field. -/
def splitPipeAux : List Char → List Char → List (List Char)
  | [], acc => [acc.reverse]
  | c :: t, acc =>
    if c = '|' then acc.reverse :: splitPipeAux t [] else splitPipeAux t (c :: acc)

/-- parse_line from file_handler.py: strip the line, split it on the pipe
character, and strip every field. -/
def parse_line (line : String) : List String :=
  (splitPipeAux (pyStripL line.data) []).map (fun cs => pyStrip ⟨cs⟩)

/-- Helper of create_line: join the character lists with pipes. -/
def joinPipe : List (List Char) → List Char
  | [] => []
  | [f] => f
  | f :: rest => f ++ '|' :: joinPipe rest

/-- create_line from file_handler.py: pipe-join the fields and add a newline. -/
def create_line (fields : List String) : String :=
  ⟨joinPipe (fields.map String.data) ++ ['\n']⟩

/-- Lexicographic code-point order on character lists: Python's str less-than. -/
def pyCharsLt : List Char → List Char → Bool
  | [], [] => false
  | [], _ :: _ => true
  | _ :: _, [] => false
  | a :: as, b :: bs =>
    if a.toNat < b.toNat then true
    else if b.toNat < a.toNat then false
    else pyCharsLt as bs

/-- Python's str less-or-equal, as the negation of the reversed less-than. -/
def pyStrLe (s t : String) : Bool := !(pyCharsLt t.data s.data)

/-! ### Numeric parsing (Python float and int) -/

/-- Numeric value of a digit run. -/
def digitsToNat (l : List Char) : Nat :=
  l.foldl (fun a c => a * 10 + (c.toNat - ('0').toNat)) 0

/-- Mantissa of a float literal: digits with at most one dot, at least one
digit overall. -/
def parseMantissa (cs : List Char) : Option ℚ :=
  let p := cs.span (fun c => c.isDigit)
  match p.2 with
  | [] => if p.1 = [] then none else some (digitsToNat p.1 : ℚ)
  | c :: fp =>
    if c = '.' ∧ fp.all Char.isDigit ∧ (p.1 ≠ [] ∨ fp ≠ []) then
      some ((digitsToNat p.1 : ℚ) + (digitsToNat fp : ℚ) / (10 : ℚ) ^ fp.length)
    else none

/-- Optional sign, then the rest. -/
def splitSign : List Char → ℚ × List Char
  | '+' :: t => (1, t)
  | '-' :: t => (-1, t)
  | t => (1, t)

/-- Exponent part of a float literal (the text after e or E). -/
def parseExponent (cs : List Char) : Option Int :=
  let p := splitSign cs
  if p.2 ≠ [] ∧ p.2.all Char.isDigit then
    some ((if p.1 = 1 then 1 else -1) * (digitsToNat p.2 : Int))
  else none

/-- Scale by a power of ten with an integer exponent. -/
def scalePow10 (m : ℚ) (e : Int) : ℚ :=
  if 0 ≤ e then m * (10 : ℚ) ^ e.toNat else m / (10 : ℚ) ^ (-e).toNat

/-- Python float(s) on finite decimal literals: strip whitespace, optional
sign, digits with one optional dot, optional exponent. Returns none exactly
where Python raises ValueError. -/
def pyFloat? (s : String) : Option ℚ :=
  let cs := pyStripL s.data
  let sg := splitSign cs
  let p := sg.2.span (fun c => c ≠ 'e' ∧ c ≠ 'E')
  let ex : Option Int :=
    match p.2 with
    | [] => some 0
    | _ :: t => parseExponent t
  match parseMantissa p.1, ex with
  | some m, some e => some (sg.1 * scalePow10 m e)
  | _, _ => none

/-- Python int(s): strip whitespace, optional sign, a nonempty digit run. -/
def pyInt? (s : String) : Option Int :=
  let cs := pyStripL s.data
  let sg := splitSign cs
  if sg.2 ≠ [] ∧ sg.2.all Char.isDigit then
    some ((if sg.1 = 1 then 1 else -1) * (digitsToNat sg.2 : Int))
  else none

/-- Python round-half-to-even on a rational. -/
def roundHalfEven (q : ℚ) : Int :=
  let f : Int := ⌊q⌋
  let r : ℚ := q - (f : ℚ)
  if r < 1 / 2 then f
  else if 1 / 2 < r then f + 1
  else if f % 2 = 0 then f else f + 1

/-- Python round(x, 2), in the exact-rational model of float arithmetic. -/
def round2 (q : ℚ) : ℚ := (roundHalfEven (q * 100) : ℚ) / 100

/-- Python int(x) on a float value: truncation toward zero. -/
def pyTrunc (q : ℚ) : Int := Int.tdiv q.num (q.den : Int)

example : pyFloat? (removeComma ("1,500")) = some 1500 := by decide
example : pyFloat? (" -4.25") = some (-(17 : ℚ) / 4) := by decide
example : pyFloat? ("1.2.3") = none := by decide
example : pyFloat? ("") = none := by decide
example : pyFloat? ("2e2") = some 200 := by decide
example : pyInt? ("101") = some 101 := by decide
example : pyInt? ("1O1") = none := by decide
example : pyStrip ("  a b ") = ("a b") := by decide
example : round2 ((25 : ℚ) / 1000 * 100) = 5 / 2 := by decide
example : pyTrunc (-(7 : ℚ) / 2) = -3 := by decide

/-! ### DataCleaner (data_processor.py) -/

/-- clean_numeric: raise on the empty string, else strip commas and parse as
a float. none models the raised ValueError. -/
def clean_numeric (value : String) : Option ℚ :=
  if value = ("") then none else pyFloat? (removeComma value)

/-- is_valid_record: the cleaning-time validator, rules evaluated in source
order with first-failure short-circuit; returns (accepted, reason). -/
def is_valid_record (fields : List String) : Bool × String :=
  if fields.length < 8 then (false, ("Insufficient fields"))
  else
    let transaction_id := pyStrip (fields.getD 0 (""))
    let customer_id := pyStrip (fields.getD 6 (""))
    let region := pyStrip (fields.getD 7 (""))
    let quantity := pyStrip (fields.getD 4 (""))
    let unit_price := pyStrip (fields.getD 5 (""))
    if customer_id = ("") ∨ region = ("") then
      (false, ("Missing CustomerID or Region"))
    else
      match clean_numeric quantity with
      | none => (false, ("Invalid Quantity format"))
      | some qty =>
        if qty ≤ 0 then (false, ("Quantity <= 0"))
        else
          match clean_numeric unit_price with
          | none => (false, ("Invalid UnitPrice format"))
          | some price =>
            if price ≤ 0 then (false, ("UnitPrice <= 0"))
            else if !(pyStartsWith transaction_id 'T') then
              (false, ("TransactionID not starting with 'T'"))
            else (true, ("Valid"))

/-- clean_field: strip commas from a field matching the digits, comma, dot,
minus pattern; other fields are returned unchanged. -/
def isNumLike (s : String) : Bool :=
  !s.data.isEmpty && s.data.all (fun c => c.isDigit || c = ',' || c = '.' || c = '-')

/-- clean_field from DataCleaner. -/
def clean_field (field : String) : String :=
  if isNumLike field then removeComma field else field

/-- clean_product_name from DataCleaner. -/
def clean_product_name (product_name : String) : String := commaToSpace product_name

/-- The per-field body of the clean_record loop: strip, then dispatch on
the field position. -/
def cleanOne (i : Nat) (field : String) : String :=
  let f := pyStrip field
  if i = 3 then clean_product_name f
  else if i = 4 ∨ i = 5 then clean_field f
  else f

/-- The clean_record loop, carrying the running field index. -/
def cleanFieldsFrom (i : Nat) : List String → List String
  | [] => []
  | f :: t => cleanOne i f :: cleanFieldsFrom (i + 1) t

/-- clean_record from DataCleaner: strip each field; ProductName (index 3)
loses its commas to spaces; Quantity and UnitPrice (indices 4 and 5) are
comma-stripped when numeric-looking. -/
def clean_record (fields : List String) : List String := cleanFieldsFrom 0 fields

/-- The counters and outputs of one process_records run. -/
structure CleanState where
  valid_lines : List String
  invalid_lines : List String
  valid_records : Nat
  invalid_records : Nat
  invalid_reasons : List String
  total_records : Nat
deriving DecidableEq

/-- One iteration of the process_records loop. -/
def processLine (st : CleanState) (line : String) : CleanState :=
  if pyStrip line = ("") then st
  else
    let fields := parse_line line
    let r := is_valid_record fields
    if r.1 then
      { st with
        valid_lines := st.valid_lines ++ [create_line (clean_record fields)]
        valid_records := st.valid_records + 1 }
    else
      { st with
        invalid_records := st.invalid_records + 1
        invalid_reasons := st.invalid_reasons ++ [r.2 ++ (": ") ++ pyStrip line]
        invalid_lines := st.invalid_lines ++ [line] }

/-- process_records from DataCleaner: keep the header in valid_lines, set
total_records to the number of non-header lines, then run the loop. -/
def process_records (lines : List String) : CleanState :=
  match lines with
  | [] =>
    { valid_lines := [], invalid_lines := [], valid_records := 0
      invalid_records := 0, invalid_reasons := [], total_records := 0 }
  | header :: rest =>
    rest.foldl processLine
      { valid_lines := [header], invalid_lines := [], valid_records := 0
        invalid_records := 0, invalid_reasons := [], total_records := rest.length }

/-- Whether process_records silently skips the line: blank after strip. -/
def blankLine (line : String) : Bool := pyStrip line = ("")

/-- Whether a non-blank line is accepted by the cleaning-time validator. -/
def keptLine (line : String) : Bool :=
  !blankLine line && (is_valid_record (parse_line line)).1

/-- Whether a non-blank line is rejected by the cleaning-time validator. -/
def rejectedLine (line : String) : Bool :=
  !blankLine line && !(is_valid_record (parse_line line)).1

/-- The cleaned pipe-joined output line of an accepted input line. -/
def emitLine (line : String) : String :=
  create_line (clean_record (parse_line line))

/-- The reason-log entry of a rejected input line. -/
def reasonLine (line : String) : String :=
  (is_valid_record (parse_line line)).2 ++ (": ") ++ pyStrip line

/-! ### The claimed rule cascade of C1, written from the claim's words -/

/-- The outcome taxonomy of the cleaning-time validator. -/
inductive ValidationOutcome where
  | shortRecord
  | missingKeyField
  | invalidQuantity
  | nonPositiveQuantity
  | invalidPrice
  | nonPositivePrice
  | badTransactionStart
  | valid
deriving DecidableEq

/-- Modelled from claim C1's words: rule order (1) fewer than 8 fields,
(2) CustomerID or Region empty, (3) Quantity comma-stripped parse failure
else nonpositive, (4) the same for UnitPrice, (5) TransactionID does not
start with T, else accepted; first failure wins. -/
def specValidator (fields : List String) : ValidationOutcome :=
  if fields.length < 8 then .shortRecord
  else if pyStrip (fields.getD 6 ("")) = ("") ∨ pyStrip (fields.getD 7 ("")) = ("") then
    .missingKeyField
  else
    match pyFloat? (removeComma (pyStrip (fields.getD 4 ("")))) with
    | none => .invalidQuantity
    | some qty =>
      if qty ≤ 0 then .nonPositiveQuantity
      else
        match pyFloat? (removeComma (pyStrip (fields.getD 5 ("")))) with
        | none => .invalidPrice
        | some price =>
          if price ≤ 0 then .nonPositivePrice
          else if !(pyStartsWith (pyStrip (fields.getD 0 (""))) 'T') then
            .badTransactionStart
          else .valid

/-- The accept flag and reason string the source code attaches to each
outcome of the claimed cascade. -/
def outcomeResult : ValidationOutcome → Bool × String
  | .shortRecord => (false, ("Insufficient fields"))
  | .missingKeyField => (false, ("Missing CustomerID or Region"))
  | .invalidQuantity => (false, ("Invalid Quantity format"))
  | .nonPositiveQuantity => (false, ("Quantity <= 0"))
  | .invalidPrice => (false, ("Invalid UnitPrice format"))
  | .nonPositivePrice => (false, ("UnitPrice <= 0"))
  | .badTransactionStart => (false, ("TransactionID not starting with 'T'"))
  | .valid => (true, ("Valid"))

example :
    is_valid_record [("T1"), ("d"), ("P1"), ("A"), ("2"), ("3"), ("C1"), ("N")]
      = (true, ("Valid")) := by decide
example :
    is_valid_record [("X1"), ("d"), ("P1"), ("A"), ("0"), ("3"), ("C1"), ("N")]
      = (false, ("Quantity <= 0")) := by decide
example :
    clean_record [("T1"), ("d"), ("P1"), ("A,B"), ("1,500"), ("3"), ("C1"), ("N")]
      = [("T1"), ("d"), ("P1"), ("A B"), ("1500"), ("3"), ("C1"), ("N")] := by decide

/-! ### Transactions and the aggregation engine (data_processor.py) -/

/-- A parsed transaction record: the eight pipe-delimited fields, all held
as strings exactly as the Python dictionaries hold them. -/
structure Transaction where
  TransactionID : String
  Date : String
  ProductID : String
  ProductName : String
  Quantity : String
  UnitPrice : String
  CustomerID : String
  Region : String
deriving DecidableEq

/-- The shared derived quantity of every aggregate: float(Quantity with
commas stripped) times float(UnitPrice with commas stripped); none when
either parse raises, which makes the aggregate skip the record. -/
def amount? (t : Transaction) : Option ℚ :=
  match pyFloat? (removeComma t.Quantity), pyFloat? (removeComma t.UnitPrice) with
  | some q, some p => some (q * p)
  | _, _ => none

/-- One iteration of the calculate_total_revenue loop: add the parsed
amount, or skip the record when parsing raises. -/
def revenueStep (acc : ℚ) (t : Transaction) : ℚ :=
  match amount? t with
  | some a => acc + a
  | none => acc

/-- calculate_total_revenue: sum the amount over all transactions, silently
skipping records whose Quantity or UnitPrice fails to parse. -/
def calculate_total_revenue (transactions : List Transaction) : ℚ :=
  transactions.foldl revenueStep 0

/-- The per-region statistics of region_wise_sales. -/
structure RegionStats where
  total_sales : ℚ
  transaction_count : Nat
  percentage : ℚ
deriving DecidableEq

/-- Update the insertion-ordered region table with one parsed amount, as the
Python dict update does: a new region is appended at the end. -/
def bumpRegion : List (String × ℚ × Nat) → String → ℚ → List (String × ℚ × Nat)
  | [], k, a => [(k, a, 1)]
  | e :: t, k, a =>
    if e.1 = k then (e.1, e.2.1 + a, e.2.2 + 1) :: t else e :: bumpRegion t k a

/-- One iteration of the region_wise_sales aggregation loop, also carrying
the running grand total. -/
def regionStep (acc : List (String × ℚ × Nat) × ℚ) (t : Transaction) :
    List (String × ℚ × Nat) × ℚ :=
  match amount? t with
  | some a => (bumpRegion acc.1 t.Region a, acc.2 + a)
  | none => acc

/-- region_wise_sales: group by Region in insertion order, attach the
percentage of the grand total (0 when the total is not positive), and sort
by total_sales descending; Python's stable sorted() is modelled by
insertion sort, which produces the same list. -/
def region_wise_sales (transactions : List Transaction) :
    List (String × RegionStats) :=
  let acc := transactions.foldl regionStep ([], 0)
  let withPct : List (String × RegionStats) :=
    acc.1.map (fun e =>
      (e.1,
       { total_sales := e.2.1
         transaction_count := e.2.2
         percentage := if 0 < acc.2 then round2 (e.2.1 / acc.2 * 100) else 0 }))
  List.insertionSort (fun a b => b.2.total_sales ≤ a.2.total_sales) withPct

/-- The per-day statistics of daily_sales_trend, after the customer set is
collapsed to its cardinality. -/
structure DailyStats where
  revenue : ℚ
  transaction_count : Nat
  unique_customers : Nat
deriving DecidableEq

/-- Insert a customer id into the distinct-customer list if absent; the list
models the Python set, of which only the cardinality is observed. -/
def addCustomer (l : List String) (c : String) : List String :=
  if c ∈ l then l else l ++ [c]

/-- Update the insertion-ordered daily table with one record: revenue,
count, and the distinct customers of the day. -/
def bumpDaily : List (String × ℚ × Nat × List String) → String → String → ℚ →
    List (String × ℚ × Nat × List String)
  | [], d, c, a => [(d, a, 1, [c])]
  | e :: t, d, c, a =>
    if e.1 = d then (e.1, e.2.1 + a, e.2.2.1 + 1, addCustomer e.2.2.2 c) :: t
    else e :: bumpDaily t d c a

/-- One iteration of the daily_sales_trend aggregation loop. -/
def dailyStep (acc : List (String × ℚ × Nat × List String)) (t : Transaction) :
    List (String × ℚ × Nat × List String) :=
  match amount? t with
  | some a => bumpDaily acc (pyStrip t.Date) (pyStrip t.CustomerID) a
  | none => acc

/-- daily_sales_trend: group by Date (an opaque string), round the revenue
to 2 decimals, count distinct customers, and sort ascending by the Date
string (Python sorted over the items, keys are distinct). -/
def daily_sales_trend (transactions : List Transaction) :
    List (String × DailyStats) :=
  let data := transactions.foldl dailyStep []
  let result : List (String × DailyStats) :=
    data.map (fun e => (e.1, { revenue := round2 e.2.1, transaction_count := e.2.2.1, unique_customers := e.2.2.2.length }))
  List.insertionSort (fun a b => pyStrLe a.1 b.1 = true) result

/-- The fold of Python's max(items, key=revenue): the first entry of the
maximal revenue is retained, a later entry replaces it only when strictly
greater. -/
def pickPeak (e : String × DailyStats) (rest : List (String × DailyStats)) :
    String × DailyStats :=
  rest.foldl (fun best x => if best.2.revenue < x.2.revenue then x else best) e

/-- find_peak_sales_day: (None, 0.0, 0) on an empty trend, else the peak
entry of the date-sorted daily mapping. -/
def find_peak_sales_day (transactions : List Transaction) :
    Option String × ℚ × Nat :=
  match daily_sales_trend transactions with
  | [] => (none, 0, 0)
  | e :: rest =>
    let p := pickPeak e rest
    (some p.1, p.2.revenue, p.2.transaction_count)

/-- Modelled from claim C3's words: the same peak selection, but run over
the daily mapping in first-encountered insertion order (the order dates
first appear in the transaction list) instead of the date-sorted mapping. -/
def findPeakClaimed (transactions : List Transaction) :
    Option String × ℚ × Nat :=
  let data := transactions.foldl dailyStep []
  let result : List (String × DailyStats) :=
    data.map (fun e => (e.1, { revenue := round2 e.2.1, transaction_count := e.2.2.1, unique_customers := e.2.2.2.length }))
  match result with
  | [] => (none, 0, 0)
  | e :: rest =>
    let p := pickPeak e rest
    (some p.1, p.2.revenue, p.2.transaction_count)

/-- Update the insertion-ordered product table with one record: total
quantity and total revenue. -/
def bumpProduct : List (String × ℚ × ℚ) → String → ℚ → ℚ → List (String × ℚ × ℚ)
  | [], n, q, r => [(n, q, r)]
  | e :: t, n, q, r =>
    if e.1 = n then (e.1, e.2.1 + q, e.2.2 + r) :: t else e :: bumpProduct t n q r

/-- One iteration of the product aggregation loop shared by the product
views: accumulate quantity and quantity times price per ProductName. -/
def productStep (acc : List (String × ℚ × ℚ)) (t : Transaction) :
    List (String × ℚ × ℚ) :=
  match pyFloat? (removeComma t.Quantity), pyFloat? (removeComma t.UnitPrice) with
  | some q, some p => bumpProduct acc t.ProductName q (q * p)
  | _, _ => acc

/-- The product grouping of low_performing_products (its step 1). -/
def productAgg (transactions : List Transaction) : List (String × ℚ × ℚ) :=
  transactions.foldl productStep []

/-- low_performing_products: keep the products whose total quantity is
strictly below the threshold, emit (name, truncated quantity, rounded
revenue), and sort ascending by the emitted quantity (stable). -/
def low_performing_products (transactions : List Transaction) (threshold : ℚ) :
    List (String × Int × ℚ) :=
  let low := (productAgg transactions).filterMap
    (fun e =>
      if e.2.1 < threshold then some (e.1, pyTrunc e.2.1, round2 e.2.2) else none)
  List.insertionSort (fun a b => a.2.1 ≤ b.2.1) low

/-! ### Enrichment (api_handler.py) -/

/-- One value of the product lookup table built by create_product_mapping:
title, category, brand and rating, all present. -/
structure ProductInfo where
  title : String
  category : String
  brand : String
  rating : ℚ
deriving DecidableEq

/-- A transaction together with the four fields the enrichment adds. -/
structure EnrichedTransaction where
  base : Transaction
  API_Category : Option String
  API_Brand : Option String
  API_Rating : Option ℚ
  API_Match : Bool
deriving DecidableEq

/-- The numeric key extracted from ProductID: drop a leading P and parse the
rest as an int, else parse the whole string; none models the caught
ValueError. -/
def extract_numeric_id (product_id : String) : Option Int :=
  if pyStartsWith product_id 'P' then pyInt? (pyTail product_id)
  else pyInt? product_id

/-- The per-record body of enrich_sales_data: copy the transaction and
attach the API fields from the lookup, or nulls and API_Match false when
the key is absent or fails to parse. -/
def enrich_one (product_mapping : List (Int × ProductInfo)) (t : Transaction) :
    EnrichedTransaction :=
  match extract_numeric_id t.ProductID with
  | some k =>
    match product_mapping.lookup k with
    | some info =>
      { base := t, API_Category := some info.category
        API_Brand := some info.brand, API_Rating := some info.rating
        API_Match := true }
    | none =>
      { base := t, API_Category := none, API_Brand := none
        API_Rating := none, API_Match := false }
  | none =>
    { base := t, API_Category := none, API_Brand := none
      API_Rating := none, API_Match := false }

/-- enrich_sales_data: the loop appends one enriched copy per transaction,
in order. -/
def enrich_sales_data (transactions : List Transaction)
    (product_mapping : List (Int × ProductInfo)) : List EnrichedTransaction :=
  transactions.map (enrich_one product_mapping)

/-! ### FilterEngine (file_handler.py) -/

/-- validate_transaction: the strict post-cleaning validator; required
fields non-empty in source order, positive parsed Quantity and UnitPrice,
then the T, P, C identifier checks. -/
def validate_transaction (t : Transaction) : Bool × String :=
  if t.TransactionID = ("") then (false, ("Missing required field: TransactionID"))
  else if t.ProductID = ("") then (false, ("Missing required field: ProductID"))
  else if t.CustomerID = ("") then (false, ("Missing required field: CustomerID"))
  else if t.Quantity = ("") then (false, ("Missing required field: Quantity"))
  else if t.UnitPrice = ("") then (false, ("Missing required field: UnitPrice"))
  else
    match pyFloat? (removeComma t.Quantity) with
    | none => (false, ("Invalid Quantity format"))
    | some q =>
      if q ≤ 0 then (false, ("Quantity must be > 0"))
      else
        match pyFloat? (removeComma t.UnitPrice) with
        | none => (false, ("Invalid UnitPrice format"))
        | some p =>
          if p ≤ 0 then (false, ("UnitPrice must be > 0"))
          else if !(pyStartsWith t.TransactionID 'T') then
            (false, ("TransactionID must start with 'T'"))
          else if !(pyStartsWith t.ProductID 'P') then
            (false, ("ProductID must start with 'P'"))
          else if !(pyStartsWith t.CustomerID 'C') then
            (false, ("CustomerID must start with 'C'"))
          else (true, ("Valid"))

/-- filter_by_region: keep the transactions whose Region matches the wanted
region case-insensitively. -/
def filter_by_region (transactions : List Transaction) (region : String) :
    List Transaction :=
  transactions.filter (fun t => pyLower t.Region = pyLower region)

/-- The bound checks of the amount filter: drop when below the requested
minimum or above the requested maximum. -/
def inBoundsB (mn mx : Option ℚ) (a : ℚ) : Bool :=
  (match mn with
   | some m => !(decide (a < m))
   | none => true) &&
  (match mx with
   | some m => !(decide (m < a))
   | none => true)

/-- filter_by_amount: keep the transactions whose parsed amount lies in the
requested range; a record whose Quantity or UnitPrice fails to parse is
silently dropped. -/
def filter_by_amount (transactions : List Transaction) (mn mx : Option ℚ) :
    List Transaction :=
  transactions.filter (fun t =>
    match amount? t with
    | some a => inBoundsB mn mx a
    | none => false)

/-- The amounts list collected by get_transaction_amount_range. -/
def amountsList (transactions : List Transaction) : List ℚ :=
  transactions.filterMap amount?

/-- get_transaction_amount_range: the minimum and maximum parsed amount, or
(0, 0) when no amount parses. -/
def get_transaction_amount_range (transactions : List Transaction) : ℚ × ℚ :=
  match amountsList transactions with
  | [] => (0, 0)
  | a :: rest => (rest.foldl min a, rest.foldl max a)

/-- The funnel summary of validate_and_filter. -/
structure FilterSummary where
  total_input : Nat
  invalid : Nat
  filtered_by_region : Nat
  filtered_by_amount : Nat
  final_count : Nat
deriving DecidableEq

/-- validate_and_filter: validate every record with the strict validator,
then apply the requested region filter, then the requested amount filter,
recording the funnel summary. -/
def validate_and_filter (transactions : List Transaction)
    (region : Option String) (min_amount max_amount : Option ℚ) :
    List Transaction × Nat × FilterSummary :=
  let validated := transactions.filter (fun t => (validate_transaction t).1)
  let invalid_count := transactions.countP (fun t => !(validate_transaction t).1)
  let afterRegion :=
    match region with
    | some r => filter_by_region validated r
    | none => validated
  let fbr :=
    match region with
    | some _ => validated.length - afterRegion.length
    | none => 0
  let amountRequested := min_amount.isSome || max_amount.isSome
  let afterAmount :=
    if amountRequested then filter_by_amount afterRegion min_amount max_amount
    else afterRegion
  let fba :=
    if amountRequested then afterRegion.length - afterAmount.length else 0
  (afterAmount, invalid_count,
   { total_input := transactions.length
     invalid := invalid_count
     filtered_by_region := fbr
     filtered_by_amount := fba
     final_count := afterAmount.length })

/-! ### Concrete records used by the counterexamples and witnesses -/

/-- A transaction dated 2024-12-02, appearing first in the C3 input. -/
def exC3a : Transaction :=
  ⟨("T1"), ("2024-12-02"), ("P1"), ("A"), ("1"), ("10"), ("C1"), ("N")⟩

/-- A transaction dated 2024-12-01 with the same revenue, appearing second. -/
def exC3b : Transaction :=
  ⟨("T2"), ("2024-12-01"), ("P1"), ("A"), ("1"), ("10"), ("C2"), ("S")⟩

/-- A field list whose ProductName has a leading comma; every field is
whitespace-trimmed. -/
def exC5 : List String :=
  [("T1"), ("2024-12-01"), ("P1"), (",A"), ("1"), ("2"), ("C1"), ("N")]

/-- A field list accepted by the amended idempotence statement. -/
def exC5ok : List String :=
  [("T1"), ("2024-12-01"), ("P1"), ("Mouse, Pad"), ("1,500"), ("2.5"), ("C1"), ("N")]

/-- A transaction that passes the strict validator. -/
def exC10 : Transaction :=
  ⟨("T1"), ("2024-12-01"), ("P1"), ("A"), ("2"), ("3"), ("C1"), ("N")⟩
example : parse_line (" T1|2024-12-01 |P1|A|1|2|C1|N\n") =
    [("T1"), ("2024-12-01"), ("P1"), ("A"), ("1"), ("2"), ("C1"), ("N")] := by decide

/-! ### Shared lemmas -/

theorem clean_numeric_eq (v : String) :
    clean_numeric v = pyFloat? (removeComma v) := by
  unfold clean_numeric
  split
  · rename_i h
    rw [h]
    decide
  · rfl

/-- Claim C1: the cleaning-time validator evaluates its rules in the exact
order short record, missing CustomerID or Region, Quantity parse failure
then nonpositivity, UnitPrice parse failure then nonpositivity, and the
TransactionID T-check, with first-failure short-circuit, so the returned
flag and reason are the ones of the first failing rule of the claimed
cascade. -/
theorem is_valid_record_eq_spec_cascade (fields : List String) :
    is_valid_record fields = outcomeResult (specValidator fields) := by
  unfold is_valid_record specValidator
  simp only [clean_numeric_eq]
  by_cases h8 : fields.length < 8
  · simp only [if_pos h8]
    rfl
  · simp only [if_neg h8]
    by_cases hmk : pyStrip (fields.getD 6 ("")) = ("") ∨ pyStrip (fields.getD 7 ("")) = ("")
    · simp only [if_pos hmk]
      rfl
    · simp only [if_neg hmk]
      cases hq : pyFloat? (removeComma (pyStrip (fields.getD 4 ("")))) with
      | none => rfl
      | some qty =>
        by_cases hq0 : qty ≤ 0
        · simp only [if_pos hq0]
          rfl
        · simp only [if_neg hq0]
          cases hp : pyFloat? (removeComma (pyStrip (fields.getD 5 ("")))) with
          | none => rfl
          | some price =>
            by_cases hp0 : price ≤ 0
            · simp only [if_pos hp0]
              rfl
            · simp only [if_neg hp0]
              cases ht : pyStartsWith (pyStrip (fields.getD 0 (""))) 'T' <;> rfl

theorem enrich_one_base (m : List (Int × ProductInfo)) (t : Transaction) :
    (enrich_one m t).base = t := by
  cases hk : extract_numeric_id t.ProductID with
  | none => simp [enrich_one, hk]
  | some k =>
    cases hl : m.lookup k with
    | none => simp [enrich_one, hk, hl]
    | some info => simp [enrich_one, hk, hl]

/-- Claim C6: enrichment looks up the numeric key stripped of a leading P;
a present key yields API_Match true and all three API fields copied
non-null from the lookup, an absent key or a failed parse yields API_Match
false and three null fields, and the (total) function never raises. -/
theorem enrich_sales_data_match_spec (m : List (Int × ProductInfo))
    (ts : List Transaction) (i : Nat) :
    ((enrich_sales_data ts m)[i]?).map
        (fun r => (r.API_Match, r.API_Category, r.API_Brand, r.API_Rating))
      = (ts[i]?).map (fun t =>
          let found := (extract_numeric_id t.ProductID).bind (fun k => m.lookup k)
          (found.isSome, found.map (fun info => info.category),
           found.map (fun info => info.brand), found.map (fun info => info.rating))) := by
  unfold enrich_sales_data
  rw [List.getElem?_map, Option.map_map]
  cases ts[i]? with
  | none => rfl
  | some t =>
    simp only [Option.map_some', Function.comp_apply]
    cases hk : extract_numeric_id t.ProductID with
    | none => simp [enrich_one, hk]
    | some k =>
      cases hl : m.lookup k with
      | none => simp [enrich_one, hk, hl]
      | some info => simp [enrich_one, hk, hl]

/-- Claim C9: enrichment is a frame-preserving map; the output list has the
same length and order as the input and each output record carries its
source transaction unchanged in all eight original fields (the embedding
is pure, so the input list and records are not mutated). -/
theorem enrich_sales_data_frame (m : List (Int × ProductInfo))
    (ts : List Transaction) :
    (enrich_sales_data ts m).length = ts.length ∧
    ∀ i : Nat, ((enrich_sales_data ts m)[i]?).map (fun r => r.base) = ts[i]? := by
  constructor
  · exact List.length_map ts (enrich_one m)
  · intro i
    unfold enrich_sales_data
    rw [List.getElem?_map, Option.map_map]
    cases ts[i]? with
    | none => rfl
    | some t =>
      simp only [Option.map_some', Function.comp_apply, enrich_one_base]

theorem sumTotals_bumpRegion (l : List (String × ℚ × Nat)) (k : String) (a : ℚ) :
    ((bumpRegion l k a).map (fun e => e.2.1)).sum = (l.map (fun e => e.2.1)).sum + a := by
  induction l with
  | nil => simp [bumpRegion]
  | cons e t ih =>
    unfold bumpRegion
    by_cases h : e.1 = k
    · simp [h]
      ring
    · simp [h, ih]
      ring

theorem regionFold_sum (ts : List Transaction) :
    ∀ acc : List (String × ℚ × Nat) × ℚ,
      ((ts.foldl regionStep acc).1.map (fun e => e.2.1)).sum
        = (acc.1.map (fun e => e.2.1)).sum + ((ts.foldl regionStep acc).2 - acc.2) := by
  induction ts with
  | nil => intro acc; simp
  | cons t rest ih =>
    intro acc
    have hstep : (t :: rest).foldl regionStep acc = rest.foldl regionStep (regionStep acc t) := rfl
    rw [hstep]
    cases h : amount? t with
    | none =>
      have hr : regionStep acc t = acc := by simp [regionStep, h]
      rw [hr]
      exact ih acc
    | some a =>
      have hr : regionStep acc t = (bumpRegion acc.1 t.Region a, acc.2 + a) := by
        simp [regionStep, h]
      rw [hr, ih (bumpRegion acc.1 t.Region a, acc.2 + a)]
      simp [sumTotals_bumpRegion]
      ring

theorem revenueFold_shift (ts : List Transaction) :
    ∀ c : ℚ, ts.foldl revenueStep c = c + ts.foldl revenueStep 0 := by
  induction ts with
  | nil => intro c; simp
  | cons t rest ih =>
    intro c
    show rest.foldl revenueStep (revenueStep c t) = c + rest.foldl revenueStep (revenueStep 0 t)
    rw [ih (revenueStep c t), ih (revenueStep 0 t)]
    unfold revenueStep
    cases amount? t with
    | none => simp
    | some a => ring

theorem regionFold_snd (ts : List Transaction) :
    ∀ acc : List (String × ℚ × Nat) × ℚ,
      (ts.foldl regionStep acc).2 = acc.2 + calculate_total_revenue ts := by
  induction ts with
  | nil => intro acc; simp [calculate_total_revenue]
  | cons t rest ih =>
    intro acc
    have hl : (t :: rest).foldl regionStep acc = rest.foldl regionStep (regionStep acc t) := rfl
    have hr : calculate_total_revenue (t :: rest) = rest.foldl revenueStep (revenueStep 0 t) := rfl
    rw [hl, hr, ih (regionStep acc t), revenueFold_shift rest (revenueStep 0 t)]
    cases h : amount? t with
    | none => simp [regionStep, revenueStep, h, calculate_total_revenue]
    | some a =>
      simp [regionStep, revenueStep, h, calculate_total_revenue]
      ring

/-- Claim C2: the region-wise sales totals sum to the total revenue; both
computations skip exactly the records whose Quantity or UnitPrice fails
the comma-stripped parse and otherwise accumulate the same Quantity times
UnitPrice amounts (stated in the exact-rational model of float
arithmetic). -/
theorem region_sales_sum_eq_total_revenue (transactions : List Transaction) :
    ((region_wise_sales transactions).map (fun e => e.2.total_sales)).sum
      = calculate_total_revenue transactions := by
  unfold region_wise_sales
  have hperm :
      List.Perm
        (List.insertionSort (fun a b => b.2.total_sales ≤ a.2.total_sales)
          ((transactions.foldl regionStep ([], 0)).1.map (fun e =>
            (e.1,
             ({ total_sales := e.2.1
                transaction_count := e.2.2
                percentage :=
                  if 0 < (transactions.foldl regionStep ([], 0)).2 then
                    round2 (e.2.1 / (transactions.foldl regionStep ([], 0)).2 * 100)
                  else 0 } : RegionStats)))))
        ((transactions.foldl regionStep ([], 0)).1.map (fun e =>
            (e.1,
             ({ total_sales := e.2.1
                transaction_count := e.2.2
                percentage :=
                  if 0 < (transactions.foldl regionStep ([], 0)).2 then
                    round2 (e.2.1 / (transactions.foldl regionStep ([], 0)).2 * 100)
                  else 0 } : RegionStats)))) :=
    List.perm_insertionSort _ _
  rw [(hperm.map (fun e => e.2.total_sales)).sum_eq]
  rw [List.map_map]
  have h1 := regionFold_sum transactions ([], 0)
  have h2 := regionFold_snd transactions ([], 0)
  simp only [List.map_nil, List.sum_nil] at h1
  calc ((transactions.foldl regionStep ([], 0)).1.map
          ((fun e => e.2.total_sales) ∘ (fun e =>
            (e.1,
             ({ total_sales := e.2.1
                transaction_count := e.2.2
                percentage :=
                  if 0 < (transactions.foldl regionStep ([], 0)).2 then
                    round2 (e.2.1 / (transactions.foldl regionStep ([], 0)).2 * 100)
                  else 0 } : RegionStats))))).sum
      = ((transactions.foldl regionStep ([], 0)).1.map (fun e => e.2.1)).sum := rfl
    _ = calculate_total_revenue transactions := by
        rw [h1, h2]
        simp

/-- Claim C8: low_performing_products returns exactly the products of the
aggregation whose total quantity is strictly below the threshold, each as
(name, quantity truncated to an integer, revenue rounded to 2 decimals),
and the result is sorted ascending by the emitted quantity component. -/
theorem low_performing_products_spec (transactions : List Transaction)
    (threshold : ℚ) :
    List.Perm (low_performing_products transactions threshold)
      ((productAgg transactions).filterMap
        (fun e =>
          if e.2.1 < threshold then some (e.1, pyTrunc e.2.1, round2 e.2.2)
          else none)) ∧
    List.Sorted (fun a b : String × Int × ℚ => a.2.1 ≤ b.2.1)
      (low_performing_products transactions threshold) := by
  constructor
  · exact List.perm_insertionSort _ _
  · unfold low_performing_products
    letI : IsTotal (String × Int × ℚ) (fun a b => a.2.1 ≤ b.2.1) :=
      ⟨fun a b => Int.le_total a.2.1 b.2.1⟩
    letI : IsTrans (String × Int × ℚ) (fun a b => a.2.1 ≤ b.2.1) :=
      ⟨fun _ _ _ hab hbc => le_trans hab hbc⟩
    exact List.sorted_insertionSort _ _

theorem length_filter_add_countP_not {α : Type} (p : α → Bool) (l : List α) :
    (l.filter p).length + l.countP (fun a => !(p a)) = l.length := by
  induction l with
  | nil => simp
  | cons a t ih =>
    by_cases h : p a <;> simp [h, List.countP_cons, List.filter_cons] <;> omega

/-- Claim C7: validate_and_filter applies validation, then the
case-insensitive region filter, then the amount filter, in that order, and
its funnel summary records the input length, the strict-validation
rejections, the exact number of records each filter stage removed, and the
surviving count, so that the funnel adds back up to the input length. -/
theorem validate_and_filter_funnel (ts : List Transaction)
    (region : Option String) (mn mx : Option ℚ) :
    (validate_and_filter ts region mn mx).1
        = (let validated := ts.filter (fun t => (validate_transaction t).1)
           let afterRegion :=
             match region with
             | some r => filter_by_region validated r
             | none => validated
           if mn.isSome || mx.isSome then filter_by_amount afterRegion mn mx
           else afterRegion) ∧
    (validate_and_filter ts region mn mx).2.1
        = ts.countP (fun t => !(validate_transaction t).1) ∧
    (validate_and_filter ts region mn mx).2.2.total_input = ts.length ∧
    (validate_and_filter ts region mn mx).2.2.invalid
        = ts.countP (fun t => !(validate_transaction t).1) ∧
    (validate_and_filter ts region mn mx).2.2.filtered_by_region
        = (let validated := ts.filter (fun t => (validate_transaction t).1)
           match region with
           | some r =>
             validated.countP (fun t => !(decide (pyLower t.Region = pyLower r)))
           | none => 0) ∧
    (validate_and_filter ts region mn mx).2.2.filtered_by_amount
        = (let validated := ts.filter (fun t => (validate_transaction t).1)
           let afterRegion :=
             match region with
             | some r => filter_by_region validated r
             | none => validated
           if mn.isSome || mx.isSome then
             afterRegion.countP (fun t =>
               !(match amount? t with
                 | some a => inBoundsB mn mx a
                 | none => false))
           else 0) ∧
    (validate_and_filter ts region mn mx).2.2.final_count
        = ((validate_and_filter ts region mn mx).1).length ∧
    (validate_and_filter ts region mn mx).2.2.total_input
        = (validate_and_filter ts region mn mx).2.2.invalid
          + (validate_and_filter ts region mn mx).2.2.filtered_by_region
          + (validate_and_filter ts region mn mx).2.2.filtered_by_amount
          + (validate_and_filter ts region mn mx).2.2.final_count := by
  have hvalid :
      (ts.filter (fun t => (validate_transaction t).1)).length
        + ts.countP (fun t => !(validate_transaction t).1) = ts.length :=
    length_filter_add_countP_not _ ts
  cases region with
  | none =>
    have hA := length_filter_add_countP_not
      (fun t =>
        match amount? t with
        | some a => inBoundsB mn mx a
        | none => false)
      (ts.filter (fun t => (validate_transaction t).1))
    have hAle := List.length_filter_le
      (fun t =>
        match amount? t with
        | some a => inBoundsB mn mx a
        | none => false)
      (ts.filter (fun t => (validate_transaction t).1))
    by_cases ha : (mn.isSome || mx.isSome) = true <;>
      (refine ⟨?_, ?_, ?_, ?_, ?_, ?_, ?_, ?_⟩ <;>
        simp only [validate_and_filter, filter_by_region, filter_by_amount, ha,
          if_true, if_false, Bool.false_eq_true] <;>
        first
        | rfl
        | omega)
  | some r =>
    have hR := length_filter_add_countP_not
      (fun t => decide (pyLower t.Region = pyLower r))
      (ts.filter (fun t => (validate_transaction t).1))
    have hRle := List.length_filter_le
      (fun t => decide (pyLower t.Region = pyLower r))
      (ts.filter (fun t => (validate_transaction t).1))
    have hA := length_filter_add_countP_not
      (fun t =>
        match amount? t with
        | some a => inBoundsB mn mx a
        | none => false)
      ((ts.filter (fun t => (validate_transaction t).1)).filter
        (fun t => decide (pyLower t.Region = pyLower r)))
    have hAle := List.length_filter_le
      (fun t =>
        match amount? t with
        | some a => inBoundsB mn mx a
        | none => false)
      ((ts.filter (fun t => (validate_transaction t).1)).filter
        (fun t => decide (pyLower t.Region = pyLower r)))
    by_cases ha : (mn.isSome || mx.isSome) = true <;>
      (refine ⟨?_, ?_, ?_, ?_, ?_, ?_, ?_, ?_⟩ <;>
        simp only [validate_and_filter, filter_by_region, filter_by_amount, ha,
          if_true, if_false, Bool.false_eq_true] <;>
        first
        | rfl
        | omega)
theorem validate_transaction_parses (t : Transaction)
    (h : (validate_transaction t).1 = true) :
    (pyFloat? (removeComma t.Quantity)).isSome = true ∧
    (pyFloat? (removeComma t.UnitPrice)).isSome = true := by
  unfold validate_transaction at h
  repeat' split at h
  all_goals simp_all

theorem validated_amount_isSome (t : Transaction)
    (h : (validate_transaction t).1 = true) : (amount? t).isSome = true := by
  obtain ⟨hq, hp⟩ := validate_transaction_parses t h
  unfold amount?
  cases hcq : pyFloat? (removeComma t.Quantity) with
  | none => rw [hcq] at hq; simp at hq
  | some q =>
    cases hcp : pyFloat? (removeComma t.UnitPrice) with
    | none => rw [hcp] at hp; simp at hp
    | some p => rfl

theorem filterMap_length_of_isSome {α β : Type} (f : α → Option β)
    (l : List α) (h : ∀ a ∈ l, (f a).isSome = true) :
    (l.filterMap f).length = l.length := by
  induction l with
  | nil => rfl
  | cons a t ih =>
    cases hfa : f a with
    | none =>
      have := h a (List.mem_cons_self a t)
      rw [hfa] at this
      simp at this
    | some b =>
      rw [List.filterMap_cons_some hfa]
      simp only [List.length_cons]
      rw [ih (fun x hx => h x (List.mem_cons_of_mem a hx))]

/-- Claim C10: on records accepted by the strict validator the
comma-stripped parses of Quantity and UnitPrice always succeed, so the
silent exception branch of the amount filter is unreachable: the filter
keeps exactly the validated records whose amount lies within the bounds,
and the amount-range collection drops no record. -/
theorem validated_filter_by_amount_total (ts : List Transaction)
    (mn mx : Option ℚ)
    (h : ∀ t ∈ ts, (validate_transaction t).1 = true) :
    (∀ t ∈ ts, (amount? t).isSome = true) ∧
    filter_by_amount ts mn mx
      = ts.filter (fun t => inBoundsB mn mx ((amount? t).getD 0)) ∧
    (amountsList ts).length = ts.length := by
  have hsome : ∀ t ∈ ts, (amount? t).isSome = true :=
    fun t ht => validated_amount_isSome t (h t ht)
  refine ⟨hsome, ?_, filterMap_length_of_isSome amount? ts hsome⟩
  unfold filter_by_amount
  apply List.filter_congr
  intro t ht
  cases ha : amount? t with
  | none =>
    have := hsome t ht
    rw [ha] at this
    simp at this
  | some a => simp [ha]

theorem validated_filter_by_amount_total_witness :
    (∀ t ∈ [exC10], (amount? t).isSome = true) ∧
    filter_by_amount [exC10] (some 1) none
      = [exC10].filter (fun t => inBoundsB (some 1) none ((amount? t).getD 0)) ∧
    (amountsList [exC10]).length = [exC10].length :=
  validated_filter_by_amount_total [exC10] (some 1) none (by decide)

theorem processLine_blank (st : CleanState) (l : String)
    (hb : pyStrip l = ("")) : processLine st l = st := by
  simp [processLine, hb]

theorem processLine_kept (st : CleanState) (l : String)
    (hb : ¬pyStrip l = ("")) (hv : (is_valid_record (parse_line l)).1 = true) :
    processLine st l =
      { st with
        valid_lines := st.valid_lines ++ [emitLine l]
        valid_records := st.valid_records + 1 } := by
  simp [processLine, hb, hv, emitLine]

theorem processLine_rejected (st : CleanState) (l : String)
    (hb : ¬pyStrip l = ("")) (hv : ¬(is_valid_record (parse_line l)).1 = true) :
    processLine st l =
      { st with
        invalid_records := st.invalid_records + 1
        invalid_reasons := st.invalid_reasons ++ [reasonLine l]
        invalid_lines := st.invalid_lines ++ [l] } := by
  have hv2 : (is_valid_record (parse_line l)).1 = false := by
    cases hx : (is_valid_record (parse_line l)).1
    · rfl
    · exact absurd hx hv
  simp [processLine, hb, hv2, reasonLine]

theorem processFold (rest : List String) : ∀ st : CleanState,
    rest.foldl processLine st =
      { valid_lines := st.valid_lines ++ (rest.filter keptLine).map emitLine
        invalid_lines := st.invalid_lines ++ rest.filter rejectedLine
        valid_records := st.valid_records + (rest.filter keptLine).length
        invalid_records := st.invalid_records + (rest.filter rejectedLine).length
        invalid_reasons := st.invalid_reasons ++ (rest.filter rejectedLine).map reasonLine
        total_records := st.total_records } := by
  induction rest with
  | nil => intro st; simp
  | cons l t ih =>
    intro st
    have hstep : (l :: t).foldl processLine st = t.foldl processLine (processLine st l) := rfl
    rw [hstep, ih (processLine st l)]
    by_cases hb : pyStrip l = ("")
    · have hk : keptLine l = false := by simp [keptLine, blankLine, hb]
      have hr : rejectedLine l = false := by simp [rejectedLine, blankLine, hb]
      rw [processLine_blank st l hb]
      simp [List.filter_cons, hk, hr]
    · by_cases hv : (is_valid_record (parse_line l)).1 = true
      · have hk : keptLine l = true := by simp [keptLine, blankLine, hb, hv]
        have hr : rejectedLine l = false := by simp [rejectedLine, blankLine, hb, hv]
        rw [processLine_kept st l hb hv]
        simp [List.filter_cons, hk, hr, List.append_assoc]
        omega
      · have hk : keptLine l = false := by simp [keptLine, blankLine, hb, hv]
        have hr : rejectedLine l = true := by simp [rejectedLine, blankLine, hb, hv]
        rw [processLine_rejected st l hb hv]
        simp [List.filter_cons, hk, hr, List.append_assoc]
        omega

/-- Claim C4 (amended): process_records passes the header line through
unchanged at the head of valid_lines and excludes it from every counter;
blank non-header lines are never emitted into valid_lines or invalid_lines
and never counted in the valid or invalid counters, but they are counted in
total_records, which is the number of all non-header lines; a rejected
non-blank line is appended to invalid_lines as the original untouched
line. -/
theorem process_records_characterized (header : String) (rest : List String) :
    process_records (header :: rest) =
      { valid_lines := header :: (rest.filter keptLine).map emitLine
        invalid_lines := rest.filter rejectedLine
        valid_records := (rest.filter keptLine).length
        invalid_records := (rest.filter rejectedLine).length
        invalid_reasons := (rest.filter rejectedLine).map reasonLine
        total_records := rest.length } := by
  show rest.foldl processLine _ = _
  rw [processFold rest]
  simp

/-- Claim C4 is refuted at a concrete input: the blank non-header line is
skipped by every output and by the valid and invalid counters, but it is
counted in the total counter, which the claim says must not happen. -/
theorem process_records_blank_total_counterexample :
    blankLine (" ") = true ∧
    (process_records [("h"), (" ")]).total_records = 1 ∧
    ¬(process_records [("h"), (" ")]).total_records = 0 ∧
    (process_records [("h"), (" ")]).valid_records = 0 ∧
    (process_records [("h"), (" ")]).invalid_records = 0 ∧
    (process_records [("h"), (" ")]).valid_lines = [("h")] ∧
    (process_records [("h"), (" ")]).invalid_lines = [] := by decide

theorem dropWhile_eq_self_of_head {α : Type} (p : α → Bool) (l : List α)
    (h : ∀ c, l.head? = some c → p c = false) : l.dropWhile p = l := by
  cases l with
  | nil => rfl
  | cons a t =>
    have ha := h a rfl
    simp [List.dropWhile_cons, ha]

theorem dropWhile_eq_self_of_all {α : Type} (p : α → Bool) (l : List α)
    (h : ∀ c ∈ l, p c = false) : l.dropWhile p = l := by
  cases l with
  | nil => rfl
  | cons a t =>
    have ha := h a (List.mem_cons_self a t)
    simp [List.dropWhile_cons, ha]

theorem pyStripL_eq_self (l : List Char)
    (h1 : ∀ c, l.head? = some c → isPySpace c = false)
    (h2 : ∀ c, l.getLast? = some c → isPySpace c = false) : pyStripL l = l := by
  unfold pyStripL
  rw [dropWhile_eq_self_of_head _ _ h1]
  rw [dropWhile_eq_self_of_head _ _ (by
    intro c hc
    rw [List.head?_reverse] at hc
    exact h2 c hc)]
  exact List.reverse_reverse l

theorem pyStripL_eq_self_of_all (l : List Char)
    (h : ∀ c ∈ l, isPySpace c = false) : pyStripL l = l := by
  unfold pyStripL
  rw [dropWhile_eq_self_of_all _ _ h]
  rw [dropWhile_eq_self_of_all _ _ (by
    intro c hc
    exact h c (List.mem_reverse.mp hc))]
  exact List.reverse_reverse l

theorem dropWhile_head_of_eq_self {α : Type} (p : α → Bool) (l : List α)
    (h : l.dropWhile p = l) : ∀ c, l.head? = some c → p c = false := by
  intro c hc
  cases l with
  | nil => simp at hc
  | cons a t =>
    have hac : a = c := by simpa using hc
    subst hac
    cases hp : p a
    · rfl
    · rw [List.dropWhile_cons_of_pos hp] at h
      have hle := List.Sublist.length_le
        (List.dropWhile_sublist p : List.Sublist (t.dropWhile p) t)
      rw [h] at hle
      simp at hle

theorem stripL_fix_ends (l : List Char) (h : pyStripL l = l) :
    (∀ c, l.head? = some c → isPySpace c = false) ∧
    (∀ c, l.getLast? = some c → isPySpace c = false) := by
  have hlen : (pyStripL l).length = l.length := by rw [h]
  have hrevlen : (l.dropWhile isPySpace).reverse.length
      = (l.dropWhile isPySpace).length := List.length_reverse _
  have h1 : (l.dropWhile isPySpace).length ≤ l.length :=
    List.Sublist.length_le (List.dropWhile_sublist isPySpace)
  have h2 : (pyStripL l).length ≤ (l.dropWhile isPySpace).length := by
    unfold pyStripL
    rw [List.length_reverse]
    calc ((l.dropWhile isPySpace).reverse.dropWhile isPySpace).length
        ≤ (l.dropWhile isPySpace).reverse.length :=
          List.Sublist.length_le (List.dropWhile_sublist isPySpace)
      _ = (l.dropWhile isPySpace).length := List.length_reverse _
  have hdw : l.dropWhile isPySpace = l :=
    List.Sublist.eq_of_length (List.dropWhile_sublist isPySpace) (by omega)
  constructor
  · exact dropWhile_head_of_eq_self isPySpace l hdw
  · have hrev : l.reverse.dropWhile isPySpace = l.reverse := by
      have hx : pyStripL l = (l.reverse.dropWhile isPySpace).reverse := by
        unfold pyStripL
        rw [hdw]
      rw [h] at hx
      have := congrArg List.reverse hx
      rw [List.reverse_reverse] at this
      exact this.symm
    intro c hc
    apply dropWhile_head_of_eq_self isPySpace l.reverse hrev
    rw [List.head?_reverse]
    exact hc

theorem not_space_of_allowed (c : Char)
    (h : (c.isDigit || c = ',' || c = '.' || c = '-') = true) :
    isPySpace c = false := by
  simp only [Bool.or_eq_true, decide_eq_true_eq] at h
  cases hsp : isPySpace c
  · rfl
  · exfalso
    unfold isPySpace at hsp
    simp only [Bool.or_eq_true, decide_eq_true_eq] at hsp
    rcases hsp with ((((h1 | h1) | h1) | h1) | h1) | h1 <;> subst h1 <;>
      rcases h with ((hd | hc) | hc) | hc <;>
      first
      | exact absurd hd (by decide)
      | exact absurd hc (by decide)

theorem commaToSpace_idem (s : String) :
    commaToSpace (commaToSpace s) = commaToSpace s := by
  unfold commaToSpace
  apply congrArg String.mk
  show ((s.data.map _).map _) = s.data.map _
  rw [List.map_map]
  apply List.map_congr_left
  intro c _
  by_cases hc : c = ',' <;> simp [hc]

theorem removeComma_idem (s : String) :
    removeComma (removeComma s) = removeComma s := by
  unfold removeComma
  apply congrArg String.mk
  show (s.data.filter _).filter _ = s.data.filter _
  rw [List.filter_filter]
  apply List.filter_congr
  intro c _
  by_cases hc : c = ',' <;> simp [hc]

theorem pyStrip_commaToSpace (f : String) (hf : pyStrip f = f)
    (hh : f.data.head? ≠ some ',') (hl : f.data.getLast? ≠ some ',') :
    pyStrip (commaToSpace f) = commaToSpace f := by
  have hfd : pyStripL f.data = f.data := congrArg String.data hf
  obtain ⟨he1, he2⟩ := stripL_fix_ends f.data hfd
  show (⟨pyStripL (commaToSpace f).data⟩ : String) = commaToSpace f
  have : pyStripL (commaToSpace f).data = (commaToSpace f).data := by
    apply pyStripL_eq_self
    · intro c hc
      show isPySpace c = false
      unfold commaToSpace at hc
      rw [show (⟨f.data.map (fun c => if c = ',' then ' ' else c)⟩ : String).data
            = f.data.map (fun c => if c = ',' then ' ' else c) from rfl,
        List.head?_map] at hc
      cases hd : f.data.head? with
      | none => rw [hd] at hc; simp at hc
      | some c0 =>
        rw [hd] at hc
        simp only [Option.map_some', Option.some.injEq] at hc
        have hc0 : c0 ≠ ',' := by
          intro hx
          exact hh (by rw [hd, hx])
        rw [← hc, if_neg hc0]
        exact he1 c0 hd
    · intro c hc
      show isPySpace c = false
      unfold commaToSpace at hc
      rw [show (⟨f.data.map (fun c => if c = ',' then ' ' else c)⟩ : String).data
            = f.data.map (fun c => if c = ',' then ' ' else c) from rfl,
        List.getLast?_map] at hc
      cases hd : f.data.getLast? with
      | none => rw [hd] at hc; simp at hc
      | some c0 =>
        rw [hd] at hc
        simp only [Option.map_some', Option.some.injEq] at hc
        have hc0 : c0 ≠ ',' := by
          intro hx
          exact hl (by rw [hd, hx])
        rw [← hc, if_neg hc0]
        exact he2 c0 hd
  rw [this]

theorem pyStrip_removeComma_of_numLike (f : String) (hn : isNumLike f = true) :
    pyStrip (removeComma f) = removeComma f := by
  unfold isNumLike at hn
  simp only [Bool.and_eq_true, List.all_eq_true] at hn
  show (⟨pyStripL (removeComma f).data⟩ : String) = removeComma f
  have : pyStripL (removeComma f).data = (removeComma f).data := by
    apply pyStripL_eq_self_of_all
    intro c hc
    have hcf : c ∈ f.data := List.mem_of_mem_filter hc
    exact not_space_of_allowed c (hn.2 c hcf)
  rw [this]

theorem clean_field_removeComma_of_numLike (f : String) (_hn : isNumLike f = true) :
    clean_field (removeComma f) = removeComma f := by
  unfold clean_field
  by_cases hv : isNumLike (removeComma f) = true
  · rw [if_pos hv]
    exact removeComma_idem f
  · rw [if_neg hv]

theorem cleanOne_idem (i : Nat) (f : String) (hf : pyStrip f = f)
    (h3 : i = 3 → f.data.head? ≠ some ',' ∧ f.data.getLast? ≠ some ',') :
    cleanOne i (cleanOne i f) = cleanOne i f := by
  by_cases hi3 : i = 3
  · obtain ⟨hh, hl⟩ := h3 hi3
    subst hi3
    show cleanOne 3 (cleanOne 3 f) = cleanOne 3 f
    have h1 : cleanOne 3 f = commaToSpace f := by
      simp [cleanOne, clean_product_name, hf]
    rw [h1]
    have h2 : pyStrip (commaToSpace f) = commaToSpace f :=
      pyStrip_commaToSpace f hf hh hl
    simp [cleanOne, clean_product_name, h2, commaToSpace_idem]
  · by_cases hi45 : i = 4 ∨ i = 5
    · have h1 : cleanOne i f = clean_field f := by
        simp [cleanOne, hi3, hi45, hf]
      rw [h1]
      unfold clean_field
      by_cases hn : isNumLike f = true
      · rw [if_pos hn]
        have h2 : pyStrip (removeComma f) = removeComma f :=
          pyStrip_removeComma_of_numLike f hn
        simp [cleanOne, hi3, hi45, h2,
          clean_field_removeComma_of_numLike f hn]
      · rw [if_neg hn]
        simp [cleanOne, hi3, hi45, hf]
        unfold clean_field
        rw [if_neg hn]
    · have h1 : cleanOne i f = f := by
        simp [cleanOne, hi3, hi45, hf]
      rw [h1, h1]

theorem cleanFieldsFrom_idem (l : List String) : ∀ i : Nat,
    (∀ f ∈ l, pyStrip f = f) →
    (∀ k f, l[k]? = some f → i + k = 3 →
      f.data.head? ≠ some ',' ∧ f.data.getLast? ≠ some ',') →
    cleanFieldsFrom i (cleanFieldsFrom i l) = cleanFieldsFrom i l := by
  induction l with
  | nil => intro i _ _; rfl
  | cons f t ih =>
    intro i htrim hcomma
    show cleanOne i (cleanOne i f) :: cleanFieldsFrom (i + 1) (cleanFieldsFrom (i + 1) t)
      = cleanOne i f :: cleanFieldsFrom (i + 1) t
    rw [cleanOne_idem i f (htrim f (List.mem_cons_self f t)) (by
      intro hi3
      exact hcomma 0 f (by simp) (by omega))]
    rw [ih (i + 1) (fun g hg => htrim g (List.mem_cons_of_mem f hg)) (by
      intro k g hk hik
      exact hcomma (k + 1) g (by simpa using hk) (by omega))]

/-- Claim C5 (amended): clean_record is idempotent on field lists whose
fields are already whitespace-trimmed, provided additionally that the
ProductName field (index 3) neither starts nor ends with a comma; without
that extra condition the comma-to-space rewrite produces boundary
whitespace that the second pass strips. -/
theorem clean_record_idempotent_amended (fields : List String)
    (htrim : ∀ f ∈ fields, pyStrip f = f)
    (hname : ∀ f, fields[3]? = some f →
      f.data.head? ≠ some ',' ∧ f.data.getLast? ≠ some ',') :
    clean_record (clean_record fields) = clean_record fields := by
  unfold clean_record
  apply cleanFieldsFrom_idem fields 0 htrim
  intro k f hk h0
  have hk3 : k = 3 := by omega
  subst hk3
  exact hname f hk

theorem clean_record_idempotent_amended_witness :
    (∀ f ∈ exC5ok, pyStrip f = f) ∧
    (∀ f, exC5ok[3]? = some f →
      f.data.head? ≠ some ',' ∧ f.data.getLast? ≠ some ',') ∧
    clean_record (clean_record exC5ok) = clean_record exC5ok :=
  ⟨by decide, by decide,
   clean_record_idempotent_amended exC5ok (by decide) (by decide)⟩

/-- Claim C5 is refuted at a concrete input: every field of the record is
whitespace-trimmed, yet cleaning twice differs from cleaning once, because
the leading comma of the ProductName becomes a leading space that only the
second pass strips. -/
theorem clean_record_idempotent_counterexample :
    (∀ f ∈ exC5, pyStrip f = f) ∧
    ¬(clean_record (clean_record exC5) = clean_record exC5) := by decide

theorem pyCharsLt_irrefl : ∀ l : List Char, pyCharsLt l l = false := by
  intro l
  induction l with
  | nil => rfl
  | cons a t ih =>
    unfold pyCharsLt
    simp [Nat.lt_irrefl, ih]

theorem pyCharsLt_asymm : ∀ a b : List Char,
    pyCharsLt a b = true → pyCharsLt b a = false := by
  intro a
  induction a with
  | nil =>
    intro b h
    cases b with
    | nil => simp [pyCharsLt] at h
    | cons y ys => rfl
  | cons x xs ih =>
    intro b h
    cases b with
    | nil => simp [pyCharsLt] at h
    | cons y ys =>
      unfold pyCharsLt at h ⊢
      by_cases h1 : x.toNat < y.toNat
      · have h2 : ¬y.toNat < x.toNat := by omega
        simp [h1, h2]
      · by_cases h2 : y.toNat < x.toNat
        · simp [h1, h2] at h
        · simp only [if_neg h1, if_neg h2] at h ⊢
          exact ih ys h

theorem pyCharsLt_le_trans : ∀ a b c : List Char,
    pyCharsLt b a = false → pyCharsLt c b = false → pyCharsLt c a = false := by
  intro a
  induction a with
  | nil =>
    intro b c _ _
    cases c with
    | nil => rfl
    | cons z zs => rfl
  | cons x xs ih =>
    intro b c h1 h2
    cases b with
    | nil => simp [pyCharsLt] at h1
    | cons y ys =>
      cases c with
      | nil => simp [pyCharsLt] at h2
      | cons z zs =>
        unfold pyCharsLt at h1 h2 ⊢
        by_cases hyx : y.toNat < x.toNat
        · simp [hyx] at h1
        · by_cases hzy : z.toNat < y.toNat
          · simp [hzy] at h2
          · have hzx : ¬z.toNat < x.toNat := by omega
            rw [if_neg hzx]
            by_cases hxy : x.toNat < y.toNat
            · have hxz : x.toNat < z.toNat := by omega
              simp [hxz]
            · rw [if_neg hyx, if_neg hxy] at h1
              by_cases hyz : y.toNat < z.toNat
              · have hxz : x.toNat < z.toNat := by omega
                simp [hxz]
              · rw [if_neg hzy, if_neg hyz] at h2
                have hxz : ¬x.toNat < z.toNat := by omega
                rw [if_neg hxz]
                exact ih ys zs h1 h2

theorem pyStrLe_refl (s : String) : pyStrLe s s = true := by
  unfold pyStrLe
  rw [pyCharsLt_irrefl]
  rfl

theorem pyStrLe_trans (s t u : String) (h1 : pyStrLe s t = true)
    (h2 : pyStrLe t u = true) : pyStrLe s u = true := by
  unfold pyStrLe at h1 h2 ⊢
  simp only [Bool.not_eq_true'] at h1 h2 ⊢
  exact pyCharsLt_le_trans s.data t.data u.data h1 h2

theorem pyStrLe_total (s t : String) :
    pyStrLe s t = true ∨ pyStrLe t s = true := by
  unfold pyStrLe
  simp only [Bool.not_eq_true']
  by_cases h : pyCharsLt t.data s.data = true
  · right
    exact pyCharsLt_asymm t.data s.data h
  · left
    cases hx : pyCharsLt t.data s.data
    · rfl
    · exact absurd hx h

theorem pickPeak_basic (rest : List (String × DailyStats)) :
    ∀ e : String × DailyStats,
      (pickPeak e rest = e ∨ pickPeak e rest ∈ rest) ∧
      e.2.revenue ≤ (pickPeak e rest).2.revenue ∧
      ∀ x ∈ rest, x.2.revenue ≤ (pickPeak e rest).2.revenue := by
  induction rest with
  | nil =>
    intro e
    exact ⟨Or.inl rfl, le_refl _, by simp⟩
  | cons y ys ih =>
    intro e
    have hstep : pickPeak e (y :: ys)
        = pickPeak (if e.2.revenue < y.2.revenue then y else e) ys := rfl
    rw [hstep]
    obtain ⟨hmem, hbe, hall⟩ := ih (if e.2.revenue < y.2.revenue then y else e)
    refine ⟨?_, ?_, ?_⟩
    · rcases hmem with hm | hm
      · rw [hm]
        by_cases hlt : e.2.revenue < y.2.revenue
        · rw [if_pos hlt]
          exact Or.inr (List.mem_cons_self y ys)
        · rw [if_neg hlt]
          exact Or.inl rfl
      · exact Or.inr (List.mem_cons_of_mem y hm)
    · refine le_trans ?_ hbe
      by_cases hlt : e.2.revenue < y.2.revenue
      · rw [if_pos hlt]
        exact le_of_lt hlt
      · rw [if_neg hlt]
    · intro x hx
      rcases List.mem_cons.mp hx with hm | hm
      · subst hm
        refine le_trans ?_ hbe
        by_cases hlt : e.2.revenue < x.2.revenue
        · rw [if_pos hlt]
        · rw [if_neg hlt]
          exact le_of_not_lt hlt
      · exact hall x hm

theorem pickPeak_tie (rest : List (String × DailyStats)) :
    ∀ e : String × DailyStats,
      List.Sorted (fun a b : String × DailyStats => pyStrLe a.1 b.1 = true) (e :: rest) →
      ∀ x : String × DailyStats, (x = e ∨ x ∈ rest) →
        x.2.revenue = (pickPeak e rest).2.revenue →
        pyStrLe (pickPeak e rest).1 x.1 = true := by
  induction rest with
  | nil =>
    intro e _ x hx _
    rcases hx with hx | hx
    · subst hx
      exact pyStrLe_refl _
    · simp at hx
  | cons y ys ih =>
    intro e hs x hx hxrev
    obtain ⟨hey, hs2⟩ := List.sorted_cons.mp hs
    obtain ⟨hyall, hys⟩ := List.sorted_cons.mp hs2
    by_cases hlt : e.2.revenue < y.2.revenue
    · have hstep : pickPeak e (y :: ys) = pickPeak y ys := by
        show pickPeak (if e.2.revenue < y.2.revenue then y else e) ys = _
        rw [if_pos hlt]
      rw [hstep] at hxrev ⊢
      obtain ⟨hmem', hbe', hall'⟩ := pickPeak_basic ys y
      rcases hx with rfl | hx
      · have hcontra := lt_of_lt_of_le hlt hbe'
        rw [← hxrev] at hcontra
        exact absurd hcontra (lt_irrefl _)
      · refine ih y hs2 x ?_ hxrev
        rcases List.mem_cons.mp hx with hm | hm
        · exact Or.inl hm
        · exact Or.inr hm
    · have hstep : pickPeak e (y :: ys) = pickPeak e ys := by
        show pickPeak (if e.2.revenue < y.2.revenue then y else e) ys = _
        rw [if_neg hlt]
      rw [hstep] at hxrev ⊢
      have hse : List.Sorted (fun a b : String × DailyStats => pyStrLe a.1 b.1 = true)
          (e :: ys) := by
        apply List.sorted_cons.mpr
        exact ⟨fun b hb => hey b (List.mem_cons_of_mem y hb), hys⟩
      obtain ⟨hmem', hbe', hall'⟩ := pickPeak_basic ys e
      rcases hx with rfl | hx
      · exact ih x hse x (Or.inl rfl) hxrev
      · rcases List.mem_cons.mp hx with hm | hm
        · subst hm
          have hye : x.2.revenue ≤ e.2.revenue := le_of_not_lt hlt
          have hpickle : (pickPeak e ys).2.revenue ≤ e.2.revenue := by
            rw [← hxrev]
            exact hye
          have herev : e.2.revenue = (pickPeak e ys).2.revenue :=
            le_antisymm hbe' hpickle
          have hpe : pyStrLe (pickPeak e ys).1 e.1 = true :=
            ih e hse e (Or.inl rfl) herev
          exact pyStrLe_trans _ _ _ hpe (hey x (List.mem_cons_self x ys))
        · exact ih e hse x (Or.inr hm) hxrev

theorem daily_sales_trend_sorted (ts : List Transaction) :
    List.Sorted (fun a b : String × DailyStats => pyStrLe a.1 b.1 = true)
      (daily_sales_trend ts) := by
  unfold daily_sales_trend
  letI : IsTotal (String × DailyStats)
      (fun a b : String × DailyStats => pyStrLe a.1 b.1 = true) :=
    ⟨fun a b => pyStrLe_total a.1 b.1⟩
  letI : IsTrans (String × DailyStats)
      (fun a b : String × DailyStats => pyStrLe a.1 b.1 = true) :=
    ⟨fun a b c hab hbc => pyStrLe_trans a.1 b.1 c.1 hab hbc⟩
  exact List.sorted_insertionSort _ _

/-- Claim C3 (amended): find_peak_sales_day returns (None, 0.0, 0) when the
daily trend is empty (in particular for an empty or fully malformed
transaction list), and otherwise returns an entry of the daily trend of
maximal revenue; ties on maximal revenue are broken toward the
lexicographically smallest Date, the first entry of the date-sorted daily
mapping, not toward the first-encountered insertion order. -/
theorem find_peak_sales_day_characterized (ts : List Transaction) :
    (daily_sales_trend ts = [] → find_peak_sales_day ts = (none, 0, 0)) ∧
    (daily_sales_trend ts ≠ [] → ∃ p ∈ daily_sales_trend ts,
      find_peak_sales_day ts = (some p.1, p.2.revenue, p.2.transaction_count) ∧
      (∀ x ∈ daily_sales_trend ts, x.2.revenue ≤ p.2.revenue) ∧
      (∀ x ∈ daily_sales_trend ts, x.2.revenue = p.2.revenue →
        pyStrLe p.1 x.1 = true)) := by
  constructor
  · intro h
    unfold find_peak_sales_day
    rw [h]
  · intro h
    cases htr : daily_sales_trend ts with
    | nil => exact absurd htr h
    | cons e rest =>
      have hsorted := daily_sales_trend_sorted ts
      rw [htr] at hsorted
      obtain ⟨hmem, hbe, hall⟩ := pickPeak_basic rest e
      refine ⟨pickPeak e rest, ?_, ?_, ?_, ?_⟩
      · rcases hmem with hm | hm
        · rw [hm]
          exact List.mem_cons_self e rest
        · exact List.mem_cons_of_mem e hm
      · unfold find_peak_sales_day
        rw [htr]
      · intro x hx
        rcases List.mem_cons.mp hx with hm | hm
        · rw [hm]
          exact hbe
        · exact hall x hm
      · intro x hx hxr
        exact pickPeak_tie rest e hsorted x
          (by
            rcases List.mem_cons.mp hx with hm | hm
            · exact Or.inl hm
            · exact Or.inr hm)
          hxr

theorem find_peak_sales_day_characterized_witness :
    find_peak_sales_day ([] : List Transaction) = (none, 0, 0) ∧
    (∃ p ∈ daily_sales_trend [exC3a, exC3b],
      find_peak_sales_day [exC3a, exC3b]
          = (some p.1, p.2.revenue, p.2.transaction_count) ∧
      (∀ x ∈ daily_sales_trend [exC3a, exC3b], x.2.revenue ≤ p.2.revenue) ∧
      (∀ x ∈ daily_sales_trend [exC3a, exC3b],
        x.2.revenue = p.2.revenue → pyStrLe p.1 x.1 = true)) :=
  ⟨(find_peak_sales_day_characterized []).1 rfl,
   (find_peak_sales_day_characterized [exC3a, exC3b]).2 (by decide)⟩

/-- Claim C3 is refuted at a concrete input: two transactions with equal
revenue whose dates arrive in reverse lexicographic order. The code
returns the lexicographically smallest date 2024-12-01; the claimed
first-encountered insertion-order tie-break would return 2024-12-02. -/
theorem find_peak_sales_day_tie_counterexample :
    find_peak_sales_day [exC3a, exC3b] = (some ("2024-12-01"), 10, 1) ∧
    findPeakClaimed [exC3a, exC3b] = (some ("2024-12-02"), 10, 1) ∧
    ¬(find_peak_sales_day [exC3a, exC3b] = findPeakClaimed [exC3a, exC3b]) := by
  decide
